import Mathlib

/-!
Verification of the sequence-ack tracker in
`src/infrastructure/external_ack.rs` (struct `ExternalAcks` and its
method `ack`).  Machine integers are embedded as `Nat` with explicit
modular reduction: `u16` values are naturals below 65536 and `u32`
values naturals below 2 ^ 32.
-/

namespace Laminar

/-- Wrapping subtraction of two `u16` values (`a.wrapping_sub(b)` in the
source).  For `a b < 65536` this is exactly `(a - b) mod 65536`. -/
def wrappingSub16 (a b : Nat) : Nat :=
  (a + 65536 - b) % 65536

/-- State of `ExternalAcks`: `last_seq : u16`, `field : u32` (the ack
bitfield) and the private `initialized` flag. -/
structure ExternalAcks where
  last_seq : Nat
  field : Nat
  initialized : Bool
  deriving DecidableEq, Repr

/-- The `Default` derive: numeric fields zero, flag false. -/
def ExternalAcks.default : ExternalAcks :=
  { last_seq := 0, field := 0, initialized := false }

/-- Well-typed states: `last_seq` fits in a `u16` and `field` in a `u32`.
Every Rust value of the struct satisfies this. -/
def ExternalAcks.Valid (a : ExternalAcks) : Prop :=
  a.last_seq < 65536 ∧ a.field < 2 ^ 32

instance (a : ExternalAcks) : Decidable a.Valid := by
  unfold ExternalAcks.Valid; infer_instance

/-- Shallow embedding of `ExternalAcks::ack`.  The shift branch reduces
mod `2 ^ 32` once at the end, which agrees with per-operation `u32`
truncation because `|||` and `<<<` commute with reduction mod a power of
two; the `|||` in the backward branch cannot overflow 32 bits on valid
states, matching `u32` exactly. -/
def ExternalAcks.ack (a : ExternalAcks) (seq_num : Nat) : ExternalAcks :=
  if !a.initialized then
    { a with last_seq := seq_num, initialized := true }
  else
    let pos_diff := wrappingSub16 seq_num a.last_seq
    let neg_diff := wrappingSub16 a.last_seq seq_num
    if pos_diff = 0 then
      a
    else if pos_diff < 32000 then
      if pos_diff ≤ 32 then
        { a with
            field := (((a.field <<< 1) ||| 1) <<< (pos_diff - 1)) % 2 ^ 32,
            last_seq := seq_num }
      else
        { a with field := 0, last_seq := seq_num }
    else if neg_diff ≤ 32 then
      { a with field := a.field ||| 1 <<< (neg_diff - 1) }
    else
      a

/-- Embedding of `ack` with the arithmetic side conditions of the Rust
operations made explicit: `none` models a fault (a subtraction that
would underflow, or a `u32` shift amount of 32 or more). -/
def ExternalAcks.ackChecked (a : ExternalAcks) (seq_num : Nat) :
    Option ExternalAcks :=
  if !a.initialized then
    some { a with last_seq := seq_num, initialized := true }
  else
    let pos_diff := wrappingSub16 seq_num a.last_seq
    let neg_diff := wrappingSub16 a.last_seq seq_num
    if pos_diff = 0 then
      some a
    else if pos_diff < 32000 then
      if pos_diff ≤ 32 then
        if 1 ≤ pos_diff ∧ pos_diff - 1 < 32 then
          some { a with
              field := (((a.field <<< 1) ||| 1) <<< (pos_diff - 1)) % 2 ^ 32,
              last_seq := seq_num }
        else
          none
      else
        some { a with field := 0, last_seq := seq_num }
    else if neg_diff ≤ 32 then
      if 1 ≤ neg_diff ∧ neg_diff - 1 < 32 then
        some { a with field := a.field ||| 1 <<< (neg_diff - 1) }
      else
        none
    else
      some a

/-- Running a finite trace of `ack` calls from a fresh tracker. -/
def runAcks (l : List Nat) : ExternalAcks :=
  l.foldl ExternalAcks.ack ExternalAcks.default

/-- Branch characterization: on an uninitialized tracker, `ack` records
the sequence number and flips the flag. -/
theorem ack_uninit (a : ExternalAcks) (seq : Nat) (h : a.initialized = false) :
    a.ack seq = { a with last_seq := seq, initialized := true } := by
  unfold ExternalAcks.ack
  rw [h]
  rfl

/-- Branch characterization: a duplicate of `last_seq` is a no-op. -/
theorem ack_dup (a : ExternalAcks) (seq : Nat) (h : a.initialized = true)
    (h0 : wrappingSub16 seq a.last_seq = 0) :
    a.ack seq = a := by
  unfold ExternalAcks.ack
  rw [h]
  simp only [Bool.not_true, Bool.false_eq_true, if_false, h0, if_pos]

/-- Branch characterization: a forward step of at most 32 shifts the
window and inserts a bit for the old `last_seq`. -/
theorem ack_shift (a : ExternalAcks) (seq : Nat) (h : a.initialized = true)
    (h1 : wrappingSub16 seq a.last_seq ≠ 0)
    (h2 : wrappingSub16 seq a.last_seq ≤ 32) :
    a.ack seq =
      { a with
          field := (((a.field <<< 1) ||| 1) <<<
            (wrappingSub16 seq a.last_seq - 1)) % 2 ^ 32,
          last_seq := seq } := by
  unfold ExternalAcks.ack
  rw [h]
  simp only [Bool.not_true, Bool.false_eq_true, if_false]
  rw [if_neg h1, if_pos (by omega : wrappingSub16 seq a.last_seq < 32000),
    if_pos h2]

/-- Branch characterization: a forward jump past the window resets the
bitfield. -/
theorem ack_reset (a : ExternalAcks) (seq : Nat) (h : a.initialized = true)
    (h1 : 32 < wrappingSub16 seq a.last_seq)
    (h2 : wrappingSub16 seq a.last_seq < 32000) :
    a.ack seq = { a with field := 0, last_seq := seq } := by
  unfold ExternalAcks.ack
  rw [h]
  simp only [Bool.not_true, Bool.false_eq_true, if_false]
  rw [if_neg (by omega : ¬ wrappingSub16 seq a.last_seq = 0), if_pos h2,
    if_neg (by omega : ¬ wrappingSub16 seq a.last_seq ≤ 32)]

/-- Branch characterization: a backward step within the window ORs in
one bit and keeps `last_seq`. -/
theorem ack_old (a : ExternalAcks) (seq : Nat) (h : a.initialized = true)
    (h1 : 32000 ≤ wrappingSub16 seq a.last_seq)
    (h2 : wrappingSub16 a.last_seq seq ≤ 32) :
    a.ack seq =
      { a with field := a.field ||| 1 <<< (wrappingSub16 a.last_seq seq - 1) } := by
  unfold ExternalAcks.ack
  rw [h]
  simp only [Bool.not_true, Bool.false_eq_true, if_false]
  rw [if_neg (by omega : ¬ wrappingSub16 seq a.last_seq = 0),
    if_neg (by omega : ¬ wrappingSub16 seq a.last_seq < 32000), if_pos h2]

/-- Branch characterization: a backward step past the window is ignored. -/
theorem ack_ignore (a : ExternalAcks) (seq : Nat) (h : a.initialized = true)
    (h1 : 32000 ≤ wrappingSub16 seq a.last_seq)
    (h2 : 32 < wrappingSub16 a.last_seq seq) :
    a.ack seq = a := by
  unfold ExternalAcks.ack
  rw [h]
  simp only [Bool.not_true, Bool.false_eq_true, if_false]
  rw [if_neg (by omega : ¬ wrappingSub16 seq a.last_seq = 0),
    if_neg (by omega : ¬ wrappingSub16 seq a.last_seq < 32000),
    if_neg (by omega : ¬ wrappingSub16 a.last_seq seq ≤ 32)]

/-- After any call the tracker is initialized. -/
theorem ack_initialized (a : ExternalAcks) (seq : Nat) :
    (a.ack seq).initialized = true := by
  by_cases h : a.initialized
  · unfold ExternalAcks.ack
    rw [h]
    simp only [Bool.not_true, Bool.false_eq_true, if_false]
    split_ifs <;> first | rfl | exact h
  · rw [ack_uninit a seq (by simpa using h)]

/-- C9: a single `record(seq)` on a fresh tracker sets `last_seq = seq`,
marks the tracker initialized, and leaves the bitfield at zero. -/
theorem c9_fresh_record (seq : Nat) :
    ExternalAcks.default.ack seq =
      { last_seq := seq, field := 0, initialized := true } :=
  rfl

/-- C2: on an initialized state with `1 ≤ pos_diff ≤ 32`, `record`
sets the bitfield to `((old << 1) | 1) << (pos_diff - 1)` truncated to
32 bits and sets `last_seq = seq`; in particular `record(0), record(32)`
ends at `last_seq = 32`, `ack_bitfield = 1 <<< 31`. -/
theorem c2_forward_within_window (a : ExternalAcks) (seq : Nat)
    (h : a.initialized = true) (hv : a.Valid) (hs : seq < 65536)
    (h1 : 1 ≤ wrappingSub16 seq a.last_seq)
    (h2 : wrappingSub16 seq a.last_seq ≤ 32) :
    a.ack seq =
      { a with
          field := (((a.field <<< 1) ||| 1) <<<
            (wrappingSub16 seq a.last_seq - 1)) % 2 ^ 32,
          last_seq := seq } ∧
    (runAcks [0, 32]).last_seq = 32 ∧
    (runAcks [0, 32]).field = 1 <<< 31 :=
  ⟨ack_shift a seq h (by omega) h2, by decide, by decide⟩

/-- C2 witness at the state after `record(0)` and input 32. -/
theorem c2_forward_within_window_witness :
    (ExternalAcks.mk 0 0 true).Valid ∧ (32 : Nat) < 65536 ∧
    1 ≤ wrappingSub16 32 0 ∧ wrappingSub16 32 0 ≤ 32 ∧
    ((ExternalAcks.mk 0 0 true).ack 32 =
      { ExternalAcks.mk 0 0 true with
          field := ((((ExternalAcks.mk 0 0 true).field <<< 1) ||| 1) <<<
            (wrappingSub16 32 (ExternalAcks.mk 0 0 true).last_seq - 1)) % 2 ^ 32,
          last_seq := 32 } ∧
      (runAcks [0, 32]).last_seq = 32 ∧
      (runAcks [0, 32]).field = 1 <<< 31) :=
  ⟨by decide, by decide, by decide, by decide,
    c2_forward_within_window (ExternalAcks.mk 0 0 true) 32 rfl (by decide)
      (by decide) (by decide) (by decide)⟩

/-- C4: on an initialized state with `32 < pos_diff < 32000`, `record`
resets the bitfield and sets `last_seq = seq`; in particular
`record(0), record(1), record(34)` ends at `last_seq = 34`, bitfield 0. -/
theorem c4_forward_beyond_window (a : ExternalAcks) (seq : Nat)
    (h : a.initialized = true) (hv : a.Valid) (hs : seq < 65536)
    (h1 : 32 < wrappingSub16 seq a.last_seq)
    (h2 : wrappingSub16 seq a.last_seq < 32000) :
    a.ack seq = { a with field := 0, last_seq := seq } ∧
    (runAcks [0, 1, 34]).last_seq = 34 ∧
    (runAcks [0, 1, 34]).field = 0 :=
  ⟨ack_reset a seq h h1 h2, by decide, by decide⟩

/-- C4 witness at the state after `record(0), record(1)` and input 34. -/
theorem c4_forward_beyond_window_witness :
    (ExternalAcks.mk 1 1 true).Valid ∧ (34 : Nat) < 65536 ∧
    32 < wrappingSub16 34 1 ∧ wrappingSub16 34 1 < 32000 ∧
    ((ExternalAcks.mk 1 1 true).ack 34 =
      { ExternalAcks.mk 1 1 true with field := 0, last_seq := 34 } ∧
      (runAcks [0, 1, 34]).last_seq = 34 ∧
      (runAcks [0, 1, 34]).field = 0) :=
  ⟨by decide, by decide, by decide, by decide,
    c4_forward_beyond_window (ExternalAcks.mk 1 1 true) 34 rfl (by decide)
      (by decide) (by decide) (by decide)⟩

/-- C5: on an initialized state with `pos_diff ≥ 32000` and
`1 ≤ neg_diff ≤ 32`, `record` ORs bit `neg_diff - 1` into the bitfield
and leaves `last_seq` and the flag unchanged; in particular
`record(0), record(1), record(6), record(4)` ends at `last_seq = 6`,
bitfield `0b110010`. -/
theorem c5_backward_within_window (a : ExternalAcks) (seq : Nat)
    (h : a.initialized = true) (hv : a.Valid) (hs : seq < 65536)
    (h1 : 32000 ≤ wrappingSub16 seq a.last_seq)
    (h2 : 1 ≤ wrappingSub16 a.last_seq seq)
    (h3 : wrappingSub16 a.last_seq seq ≤ 32) :
    a.ack seq =
      { a with field := a.field ||| 1 <<< (wrappingSub16 a.last_seq seq - 1) } ∧
    (runAcks [0, 1, 6, 4]).last_seq = 6 ∧
    (runAcks [0, 1, 6, 4]).field = 0b110010 :=
  ⟨ack_old a seq h h1 h3, by decide, by decide⟩

/-- C5 witness at the state after `record(0), record(1), record(6)` and
input 4. -/
theorem c5_backward_within_window_witness :
    (ExternalAcks.mk 6 48 true).Valid ∧ (4 : Nat) < 65536 ∧
    32000 ≤ wrappingSub16 4 6 ∧ 1 ≤ wrappingSub16 6 4 ∧
    wrappingSub16 6 4 ≤ 32 ∧
    ((ExternalAcks.mk 6 48 true).ack 4 =
      { ExternalAcks.mk 6 48 true with
          field := (ExternalAcks.mk 6 48 true).field |||
            1 <<< (wrappingSub16 (ExternalAcks.mk 6 48 true).last_seq 4 - 1) } ∧
      (runAcks [0, 1, 6, 4]).last_seq = 6 ∧
      (runAcks [0, 1, 6, 4]).field = 0b110010) :=
  ⟨by decide, by decide, by decide, by decide, by decide,
    c5_backward_within_window (ExternalAcks.mk 6 48 true) 4 rfl (by decide)
      (by decide) (by decide) (by decide) (by decide)⟩

/-- C6: on an initialized state with `pos_diff ≥ 32000` and
`neg_diff > 32`, `record` leaves the state entirely unchanged; in
particular `record(33), record(0)` ends at `last_seq = 33`, bitfield 0. -/
theorem c6_backward_too_far (a : ExternalAcks) (seq : Nat)
    (h : a.initialized = true) (hv : a.Valid) (hs : seq < 65536)
    (h1 : 32000 ≤ wrappingSub16 seq a.last_seq)
    (h2 : 32 < wrappingSub16 a.last_seq seq) :
    a.ack seq = a ∧
    (runAcks [33, 0]).last_seq = 33 ∧
    (runAcks [33, 0]).field = 0 :=
  ⟨ack_ignore a seq h h1 h2, by decide, by decide⟩

/-- C6 witness at the state after `record(33)` and input 0. -/
theorem c6_backward_too_far_witness :
    (ExternalAcks.mk 33 0 true).Valid ∧ (0 : Nat) < 65536 ∧
    32000 ≤ wrappingSub16 0 33 ∧ 32 < wrappingSub16 33 0 ∧
    ((ExternalAcks.mk 33 0 true).ack 0 = ExternalAcks.mk 33 0 true ∧
      (runAcks [33, 0]).last_seq = 33 ∧
      (runAcks [33, 0]).field = 0) :=
  ⟨by decide, by decide, by decide, by decide,
    c6_backward_too_far (ExternalAcks.mk 33 0 true) 0 rfl (by decide)
      (by decide) (by decide) (by decide)⟩

/-- Recording the current `last_seq` of an initialized tracker is a
no-op (`pos_diff = 0`). -/
theorem ack_last_seq_self (b : ExternalAcks) (hb : b.initialized = true) :
    b.ack b.last_seq = b :=
  ack_dup b b.last_seq hb (by unfold wrappingSub16; omega)

/-- C7: `record(seq)` twice in a row equals `record(seq)` once, from any
state; and on an initialized tracker `record(last_seq)` is a no-op. -/
theorem c7_idempotent (a : ExternalAcks) (seq : Nat) :
    (a.ack seq).ack seq = a.ack seq ∧
    (a.initialized = true → a.ack a.last_seq = a) := by
  refine ⟨?_, fun h => ack_last_seq_self a h⟩
  by_cases hinit : a.initialized = true
  · by_cases h0 : wrappingSub16 seq a.last_seq = 0
    · rw [ack_dup a seq hinit h0]
      exact ack_dup a seq hinit h0
    · by_cases hp : wrappingSub16 seq a.last_seq < 32000
      · have hlast : (a.ack seq).last_seq = seq := by
          by_cases h32 : wrappingSub16 seq a.last_seq ≤ 32
          · rw [ack_shift a seq hinit h0 h32]
          · rw [ack_reset a seq hinit (by omega) hp]
        have hstep := ack_last_seq_self (a.ack seq) (ack_initialized a seq)
        rw [hlast] at hstep
        exact hstep
      · by_cases hn : wrappingSub16 a.last_seq seq ≤ 32
        · rw [ack_old a seq hinit (by omega) hn]
          have hres := ack_old
            (ExternalAcks.mk a.last_seq
              (a.field ||| 1 <<< (wrappingSub16 a.last_seq seq - 1))
              a.initialized) seq hinit
            (show 32000 ≤ wrappingSub16 seq a.last_seq by omega) hn
          rw [hres]
          show ExternalAcks.mk a.last_seq
              ((a.field ||| 1 <<< (wrappingSub16 a.last_seq seq - 1)) |||
                1 <<< (wrappingSub16 a.last_seq seq - 1)) a.initialized =
            ExternalAcks.mk a.last_seq
              (a.field ||| 1 <<< (wrappingSub16 a.last_seq seq - 1))
              a.initialized
          rw [Nat.or_assoc, Nat.or_self]
        · rw [ack_ignore a seq hinit (by omega) (by omega)]
          exact ack_ignore a seq hinit (by omega) (by omega)
  · rw [ack_uninit a seq (by simpa using hinit)]
    exact ack_last_seq_self _ rfl

/-- C7 witness at a concrete state and input, covering both parts. -/
theorem c7_idempotent_witness :
    (((ExternalAcks.mk 7 3 true).ack 5).ack 5 = (ExternalAcks.mk 7 3 true).ack 5) ∧
    (ExternalAcks.mk 7 3 true).ack 7 = ExternalAcks.mk 7 3 true :=
  ⟨(c7_idempotent (ExternalAcks.mk 7 3 true) 5).1,
    (c7_idempotent (ExternalAcks.mk 7 3 true) 5).2 rfl⟩

/-- C8: `record` is total on well-typed states: the embedding with all
Rust-side arithmetic faults made explicit (`ackChecked`) never returns
`none` and agrees with `ack` on every valid state and `u16` input. -/
theorem c8_never_fails (a : ExternalAcks) (seq : Nat)
    (hv : a.Valid) (hs : seq < 65536) :
    a.ackChecked seq = some (a.ack seq) := by
  obtain ⟨hl, hf⟩ := hv
  unfold ExternalAcks.ackChecked ExternalAcks.ack
  by_cases hinit : a.initialized
  · rw [hinit]
    simp only [Bool.not_true, Bool.false_eq_true, if_false]
    split_ifs <;>
      first
        | rfl
        | (exfalso; unfold wrappingSub16 at *; omega)
  · rw [Bool.not_eq_true] at hinit
    rw [hinit]
    rfl

/-- C8 witness at a concrete valid state and input. -/
theorem c8_never_fails_witness :
    (ExternalAcks.mk 6 48 true).Valid ∧ (4 : Nat) < 65536 ∧
    (ExternalAcks.mk 6 48 true).ackChecked 4 =
      some ((ExternalAcks.mk 6 48 true).ack 4) :=
  ⟨by decide, by decide,
    c8_never_fails (ExternalAcks.mk 6 48 true) 4 (by decide) (by decide)⟩

/-- Soundness of the bitfield with respect to a predicate `P` over the
values recorded so far: the state is well typed, `last_seq` satisfies
`P` once initialized, the bitfield is empty before initialization, and
every set window bit points at a value satisfying `P`. -/
def BitSound (P : Nat → Prop) (a : ExternalAcks) : Prop :=
  a.Valid ∧
  (a.initialized = true → P a.last_seq) ∧
  (a.initialized = false → a.field = 0) ∧
  ∀ i : Nat, i < 32 → a.field.testBit i = true →
    P (wrappingSub16 a.last_seq (i + 1))

/-- The fresh tracker is sound for any predicate. -/
theorem bitSound_default (P : Nat → Prop) : BitSound P ExternalAcks.default :=
  ⟨⟨by decide, by decide⟩, fun h => Bool.noConfusion h, fun _ => rfl,
    fun i _ hbit => by simp [ExternalAcks.default] at hbit⟩

/-- One `ack` call preserves bitfield soundness whenever the recorded
value satisfies `P`. -/
theorem bitSound_ack (P : Nat → Prop) (a : ExternalAcks) (seq : Nat)
    (ha : BitSound P a) (hs : seq < 65536) (hseq : P seq) :
    BitSound P (a.ack seq) := by
  obtain ⟨⟨hl, hf⟩, hlast, hun, hbits⟩ := ha
  by_cases hinit : a.initialized = true
  · by_cases h0 : wrappingSub16 seq a.last_seq = 0
    · rw [ack_dup a seq hinit h0]
      exact ⟨⟨hl, hf⟩, hlast, hun, hbits⟩
    · by_cases hp : wrappingSub16 seq a.last_seq < 32000
      · by_cases h32 : wrappingSub16 seq a.last_seq ≤ 32
        · rw [ack_shift a seq hinit h0 h32]
          refine ⟨⟨hs, Nat.mod_lt _ (by norm_num)⟩, fun _ => hseq,
            fun hc => Bool.noConfusion
              ((show a.initialized = false from hc).symm.trans hinit), ?_⟩
          intro i hi hbit
          have hbit' : ((((a.field <<< 1) ||| 1) <<<
              (wrappingSub16 seq a.last_seq - 1)) % 2 ^ 32).testBit i =
              true := hbit
          simp only [Nat.testBit_mod_two_pow, Nat.testBit_shiftLeft,
            Nat.testBit_or, Bool.and_eq_true, Bool.or_eq_true,
            decide_eq_true_eq,
            Nat.testBit_one_eq_true_iff_self_eq_zero] at hbit'
          obtain ⟨-, hge, hcase⟩ := hbit'
          show P (wrappingSub16 seq (i + 1))
          rcases hcase with ⟨hk, hbitk⟩ | hzero
          · have hk32 :
                i - (wrappingSub16 seq a.last_seq - 1) - 1 < 32 := by
              omega
            have hPold := hbits _ hk32 hbitk
            have heq : wrappingSub16 seq (i + 1) =
                wrappingSub16 a.last_seq
                  (i - (wrappingSub16 seq a.last_seq - 1) - 1 + 1) := by
              unfold wrappingSub16 at hge hk h0 h32 ⊢
              omega
            rw [heq]
            exact hPold
          · have heq : wrappingSub16 seq (i + 1) = a.last_seq := by
              unfold wrappingSub16 at hge hzero h0 h32 ⊢
              omega
            rw [heq]
            exact hlast hinit
        · rw [ack_reset a seq hinit (by omega) hp]
          refine ⟨⟨hs, by norm_num⟩, fun _ => hseq,
            fun _ => rfl, fun i hi hbit => ?_⟩
          have hbit' : Nat.testBit 0 i = true := hbit
          simp at hbit'
      · by_cases hn : wrappingSub16 a.last_seq seq ≤ 32
        · rw [ack_old a seq hinit (by omega) hn]
          have hshift : 1 <<< (wrappingSub16 a.last_seq seq - 1) < 2 ^ 32 := by
            rw [Nat.one_shiftLeft]
            exact Nat.pow_lt_pow_right (by norm_num) (by omega)
          refine ⟨⟨hl, Nat.or_lt_two_pow hf hshift⟩, hlast,
            fun hc => Bool.noConfusion
              ((show a.initialized = false from hc).symm.trans hinit), ?_⟩
          intro i hi hbit
          have hbit' : (a.field |||
              1 <<< (wrappingSub16 a.last_seq seq - 1)).testBit i =
              true := hbit
          simp only [Nat.testBit_or, Nat.testBit_shiftLeft,
            Bool.or_eq_true, Bool.and_eq_true, decide_eq_true_eq,
            Nat.testBit_one_eq_true_iff_self_eq_zero] at hbit'
          show P (wrappingSub16 a.last_seq (i + 1))
          rcases hbit' with hold | ⟨hge, hzero⟩
          · exact hbits i hi hold
          · have hne : wrappingSub16 a.last_seq seq ≠ 0 := by
              unfold wrappingSub16 at hp h0 ⊢
              omega
            have heq : wrappingSub16 a.last_seq (i + 1) = seq := by
              unfold wrappingSub16 at hge hzero hn hne ⊢
              omega
            rw [heq]
            exact hseq
        · rw [ack_ignore a seq hinit (by omega) (by omega)]
          exact ⟨⟨hl, hf⟩, hlast, hun, hbits⟩
  · have hinit' : a.initialized = false := by
      simpa using hinit
    rw [ack_uninit a seq hinit']
    refine ⟨⟨hs, hf⟩, fun _ => hseq,
      fun hc => Bool.noConfusion (show true = false from hc), ?_⟩
    intro i hi hbit
    have hbit' : a.field.testBit i = true := hbit
    rw [hun hinit'] at hbit'
    simp at hbit'

/-- Folding a trace preserves bitfield soundness when every element of
the trace satisfies `P`. -/
theorem bitSound_foldl (P : Nat → Prop) :
    ∀ (l : List Nat) (a : ExternalAcks), BitSound P a →
      (∀ s ∈ l, s < 65536 ∧ P s) →
      BitSound P (l.foldl ExternalAcks.ack a)
  | [], _, ha, _ => ha
  | s :: t, a, ha, hl => by
    simp only [List.foldl_cons]
    exact bitSound_foldl P t _
      (bitSound_ack P a s ha (hl s (by simp)).1 (hl s (by simp)).2)
      (fun x hx => hl x (by simp [hx]))

/-- C1 counterexample: two forward jumps past the window drop history,
and after wrapping back near 0 the recorded value 0 re-enters the
window with its bit clear, so the biconditional of the claim fails. -/
theorem c1_counterexample :
    (runAcks [0, 31999, 63998, 10]).initialized = true ∧
    ¬ ((runAcks [0, 31999, 63998, 10]).field.testBit 9 = true ↔
        wrappingSub16 (runAcks [0, 31999, 63998, 10]).last_seq (9 + 1) ∈
          [0, 31999, 63998, 10]) := by
  decide

/-- C1 (amended): in the state reached by any trace of `record` calls,
a set window bit always points at a previously recorded sequence
number; the converse direction of the claim fails because forward jumps
beyond the window drop history. -/
theorem c1_bitfield_sound (l : List Nat) (hl : ∀ s ∈ l, s < 65536)
    (i : Nat) (hi : i < 32)
    (hbit : (runAcks l).field.testBit i = true) :
    wrappingSub16 (runAcks l).last_seq (i + 1) ∈ l := by
  have h := bitSound_foldl (· ∈ l) l ExternalAcks.default
    (bitSound_default _) (fun s hsl => ⟨hl s hsl, hsl⟩)
  exact h.2.2.2 i hi hbit

/-- C1 witness at the trace `record(0), record(5)` and bit 4. -/
theorem c1_bitfield_sound_witness :
    (∀ s ∈ [0, 5], s < 65536) ∧ 4 < 32 ∧
    (runAcks [0, 5]).field.testBit 4 = true ∧
    wrappingSub16 (runAcks [0, 5]).last_seq (4 + 1) ∈ [0, 5] :=
  ⟨by decide, by decide, by decide,
    c1_bitfield_sound [0, 5] (by decide) 4 (by decide) (by decide)⟩

/-- Relation between a run and its wrapping-offset run: same flag, same
bitfield, and (once initialized) `last_seq` shifted by `c` mod 65536. -/
def OffsetRel (c : Nat) (a b : ExternalAcks) : Prop :=
  b.initialized = a.initialized ∧
  b.field = a.field ∧
  (a.initialized = true →
    a.last_seq < 65536 ∧ b.last_seq = (a.last_seq + c) % 65536)

/-- One `ack` call preserves the offset relation when the offset call
receives the shifted input. -/
theorem offsetRel_ack (c : Nat) (hc : c < 65536) (a b : ExternalAcks)
    (h : OffsetRel c a b) (seq : Nat) (hs : seq < 65536) :
    OffsetRel c (a.ack seq) (b.ack ((seq + c) % 65536)) := by
  obtain ⟨hinit, hfield, hlast⟩ := h
  by_cases hA : a.initialized = true
  · obtain ⟨hl, hb⟩ := hlast hA
    have hB : b.initialized = true := by rw [hinit, hA]
    have hpos : wrappingSub16 ((seq + c) % 65536) b.last_seq =
        wrappingSub16 seq a.last_seq := by
      rw [hb]
      unfold wrappingSub16
      omega
    have hneg : wrappingSub16 b.last_seq ((seq + c) % 65536) =
        wrappingSub16 a.last_seq seq := by
      rw [hb]
      unfold wrappingSub16
      omega
    by_cases h0 : wrappingSub16 seq a.last_seq = 0
    · rw [ack_dup a seq hA h0, ack_dup b _ hB (by rw [hpos]; exact h0)]
      exact ⟨hinit, hfield, fun _ => ⟨hl, hb⟩⟩
    · by_cases hp : wrappingSub16 seq a.last_seq < 32000
      · by_cases h32 : wrappingSub16 seq a.last_seq ≤ 32
        · rw [ack_shift a seq hA h0 h32,
            ack_shift b _ hB (by rw [hpos]; exact h0) (by rw [hpos]; exact h32)]
          refine ⟨hinit, ?_, fun _ => ⟨hs, rfl⟩⟩
          show (((b.field <<< 1) ||| 1) <<<
              (wrappingSub16 ((seq + c) % 65536) b.last_seq - 1)) % 2 ^ 32 =
            (((a.field <<< 1) ||| 1) <<<
              (wrappingSub16 seq a.last_seq - 1)) % 2 ^ 32
          rw [hpos, hfield]
        · rw [ack_reset a seq hA (by omega) hp,
            ack_reset b _ hB (by rw [hpos]; omega) (by rw [hpos]; exact hp)]
          exact ⟨hinit, rfl, fun _ => ⟨hs, rfl⟩⟩
      · by_cases hn : wrappingSub16 a.last_seq seq ≤ 32
        · rw [ack_old a seq hA (by omega) hn,
            ack_old b _ hB (by rw [hpos]; omega) (by rw [hneg]; exact hn)]
          refine ⟨hinit, ?_, fun _ => ⟨hl, hb⟩⟩
          show b.field |||
              1 <<< (wrappingSub16 b.last_seq ((seq + c) % 65536) - 1) =
            a.field ||| 1 <<< (wrappingSub16 a.last_seq seq - 1)
          rw [hneg, hfield]
        · rw [ack_ignore a seq hA (by omega) (by omega),
            ack_ignore b _ hB (by rw [hpos]; omega) (by rw [hneg]; omega)]
          exact ⟨hinit, hfield, hlast⟩
  · have hA' : a.initialized = false := by simpa using hA
    have hB' : b.initialized = false := by rw [hinit, hA']
    rw [ack_uninit a seq hA', ack_uninit b _ hB']
    exact ⟨rfl, hfield, fun _ => ⟨hs, rfl⟩⟩

/-- Folding a trace and its shifted copy preserves the offset relation. -/
theorem offsetRel_foldl (c : Nat) (hc : c < 65536) :
    ∀ (l : List Nat) (a b : ExternalAcks), OffsetRel c a b →
      (∀ s ∈ l, s < 65536) →
      OffsetRel c (l.foldl ExternalAcks.ack a)
        ((l.map fun s => (s + c) % 65536).foldl ExternalAcks.ack b)
  | [], _, _, h, _ => h
  | s :: t, a, b, h, hl => by
    simp only [List.map_cons, List.foldl_cons]
    exact offsetRel_foldl c hc t _ _
      (offsetRel_ack c hc a b h s (hl s (by simp)))
      (fun x hx => hl x (by simp [hx]))

/-- A fold started on an initialized tracker stays initialized. -/
theorem foldl_ack_initialized :
    ∀ (l : List Nat) (a : ExternalAcks), a.initialized = true →
      (l.foldl ExternalAcks.ack a).initialized = true
  | [], _, h => h
  | s :: t, a, _ => by
    simp only [List.foldl_cons]
    exact foldl_ack_initialized t _ (ack_initialized a s)

/-- A nonempty trace leaves the tracker initialized. -/
theorem runAcks_initialized (s : Nat) (t : List Nat) :
    (runAcks (s :: t)).initialized = true := by
  unfold runAcks
  simp only [List.foldl_cons]
  exact foldl_ack_initialized t _ (ack_initialized _ s)

/-- C3 counterexample: on the empty trace the claim forces
`last_seq = (0 + c) mod 65536`, but both runs are still the fresh
tracker with `last_seq = 0`, so the claim fails at `c = 1`. -/
theorem c3_counterexample :
    ¬ ((runAcks (([] : List Nat).map fun s => (s + 1) % 65536)).last_seq =
        ((runAcks ([] : List Nat)).last_seq + 1) % 65536) := by
  decide

/-- C3 (amended): for every offset `c` and every NONEMPTY trace of u16
values, the shifted run has the same initialized flag and bitfield, and
its `last_seq` is the unshifted run's `last_seq` plus `c` mod 65536.
The original claim fails only on the empty trace, where no call happens
and both `last_seq` fields stay 0. -/
theorem c3_offset_equivalence (c : Nat) (hc : c < 65536) (l : List Nat)
    (hl : ∀ s ∈ l, s < 65536) (hne : l ≠ []) :
    (runAcks (l.map fun s => (s + c) % 65536)).initialized =
      (runAcks l).initialized ∧
    (runAcks (l.map fun s => (s + c) % 65536)).field = (runAcks l).field ∧
    (runAcks (l.map fun s => (s + c) % 65536)).last_seq =
      ((runAcks l).last_seq + c) % 65536 := by
  have hrel := offsetRel_foldl c hc l ExternalAcks.default ExternalAcks.default
    ⟨rfl, rfl, fun h => Bool.noConfusion h⟩ hl
  obtain ⟨s, t, rfl⟩ := List.exists_cons_of_ne_nil hne
  exact ⟨hrel.1, hrel.2.1, (hrel.2.2 (runAcks_initialized s t)).2⟩

/-- C3 witness: offset `65536 - 16` applied to the trace
`record(0), record(1), record(2)`, which straddles the wrap boundary. -/
theorem c3_offset_equivalence_witness :
    (65520 : Nat) < 65536 ∧ (∀ s ∈ [0, 1, 2], s < 65536) ∧
    ([0, 1, 2] : List Nat) ≠ [] ∧
    ((runAcks ([0, 1, 2].map fun s => (s + 65520) % 65536)).initialized =
       (runAcks [0, 1, 2]).initialized ∧
     (runAcks ([0, 1, 2].map fun s => (s + 65520) % 65536)).field =
       (runAcks [0, 1, 2]).field ∧
     (runAcks ([0, 1, 2].map fun s => (s + 65520) % 65536)).last_seq =
       ((runAcks [0, 1, 2]).last_seq + 65520) % 65536) :=
  ⟨by decide, by decide, by decide,
    c3_offset_equivalence 65520 (by decide) [0, 1, 2] (by decide) (by decide)⟩

/-- C10: the fresh tracker and the tracker after `record(0)` expose the
same public pair `(last_seq, ack_bitfield) = (0, 0)`, yet `record(5)`
yields bitfield 0 on the former and 16 on the latter, so the public pair
does not determine future behaviour. -/
theorem c10_hidden_flag :
    ExternalAcks.default.last_seq = (ExternalAcks.default.ack 0).last_seq ∧
    ExternalAcks.default.field = (ExternalAcks.default.ack 0).field ∧
    (ExternalAcks.default.ack 5).field = 0 ∧
    ((ExternalAcks.default.ack 0).ack 5).field = 16 ∧
    (ExternalAcks.default.ack 5).field ≠
      ((ExternalAcks.default.ack 0).ack 5).field := by
  decide

end Laminar
